import Mathlib

/-!
# Festora backend: session and profile lifecycle

A shallow embedding of `src/controllers/authController.js` together with the
Mongoose schemas `src/models/users.js` and `src/models/token.js`.

* JavaScript strings are lists of characters (`Str`); `String.prototype.length`
  counts UTF-16 code units and is `jsLength`.
* The two collections are lists of documents in insertion order; `findOne`
  returns the first match, `deleteOne` removes the first match, `deleteMany`
  removes every match, and a unique index makes an insert fail when the key is
  already present.
* Library calls whose code is not part of the repository (`bcrypt.hash`,
  `bcrypt.compare`, `jwt.sign` with the configured secret,
  `String.prototype.toLowerCase`) are the fields of `Env`.
* Every handler is evaluated at one reading of the clock (`Ctx.now`,
  milliseconds); the random draws it makes are the other fields of `Ctx`.
* Request bodies are well typed: a string field is absent or a string, a list
  field is absent or a list of strings.  The `error` text that a 500 response
  carries is not modelled.
-/

namespace Festora

/-- A JavaScript string. -/
abbrev Str := List Char

/-- Value of `s.length`: the number of UTF-16 code units. -/
def jsLength (s : Str) : Nat :=
  (s.map fun c => if c.toNat < 65536 then 1 else 2).sum

/-- White space and line terminators: the class `\s`, also what `trim` strips. -/
def isWhiteSpace (c : Char) : Bool :=
  let n := c.toNat
  n == 9 || n == 10 || n == 11 || n == 12 || n == 13 || n == 32 || n == 160 ||
  n == 5760 || (8192 ≤ n && n ≤ 8202) || n == 8232 || n == 8233 || n == 8239 ||
  n == 8287 || n == 12288 || n == 65279

/-- Value of `s.trim()`. -/
def jsTrim (s : Str) : Str :=
  ((s.dropWhile isWhiteSpace).reverse.dropWhile isWhiteSpace).reverse

/-- Value of `s.split(sep)` for a one-character separator. -/
def splitOnChar (sep : Char) : Str → List Str
  | [] => [[]]
  | c :: cs =>
    if c = sep then [] :: splitOnChar sep cs
    else
      match splitOnChar sep cs with
      | [] => [[c]]
      | p :: ps => (c :: p) :: ps

/-- Value of `s.startsWith(p)`. -/
def startsWith (p s : Str) : Bool := s.take p.length == p

/-! ## Regular expressions -/

/-- Regular expressions over characters; a pattern anchored with `^` and `$`
is tested against the whole string. -/
inductive Re where
  | fail
  | eps
  | cls (p : Char → Bool)
  | seq (a b : Re)
  | alt (a b : Re)
  | star (a : Re)

namespace Re

def nullable : Re → Bool
  | fail => false
  | eps => true
  | cls _ => false
  | seq a b => a.nullable && b.nullable
  | alt a b => a.nullable || b.nullable
  | star _ => true

/-- Brzozowski derivative. -/
def deriv (c : Char) : Re → Re
  | fail => fail
  | eps => fail
  | cls p => if p c then eps else fail
  | seq a b =>
    if a.nullable then alt (seq (a.deriv c) b) (b.deriv c) else seq (a.deriv c) b
  | alt a b => alt (a.deriv c) (b.deriv c)
  | star a => seq (a.deriv c) (star a)

/-- Value of `/^r$/.test(s)`. -/
def test (r : Re) (s : Str) : Bool :=
  (s.foldl (fun r c => r.deriv c) r).nullable

/-- The pattern `a+`. -/
def plus (a : Re) : Re := seq a (star a)

/-- The pattern `a{0,n}`. -/
def upTo (a : Re) : Nat → Re
  | 0 => eps
  | n + 1 => alt eps (seq a (upTo a n))

/-- The pattern `a{n}`. -/
def times (a : Re) : Nat → Re
  | 0 => eps
  | n + 1 => seq a (times a n)

/-- One given character. -/
def chr (c : Char) : Re := cls fun d => d == c

end Re

def isLower (c : Char) : Bool := 97 ≤ c.toNat && c.toNat ≤ 122
def isUpper (c : Char) : Bool := 65 ≤ c.toNat && c.toNat ≤ 90
def isLetter (c : Char) : Bool := isLower c || isUpper c
def isDigit (c : Char) : Bool := 48 ≤ c.toNat && c.toNat ≤ 57

/-- Controller pattern `/^[^\s@]+@[^\s@]+\.[^\s@]+$/`. -/
def emailRegex : Re :=
  let a := Re.plus (Re.cls fun c => !isWhiteSpace c && c != '@')
  Re.seq a (Re.seq (Re.chr '@') (Re.seq a (Re.seq (Re.chr '.') a)))

/-- Schema pattern of `name`: `/^[a-zA-Z\s]+$/`. -/
def nameMatch : Re := Re.plus (Re.cls fun c => isLetter c || isWhiteSpace c)

/-- Schema pattern of `email`:
`/^[a-zA-Z0-9._%+-]+@[a-zA-Z0-9.-]+\.[a-zA-Z]{2,}$/`. -/
def emailMatch : Re :=
  let loc := Re.plus (Re.cls fun c =>
    isLetter c || isDigit c || c == '.' || c == '_' || c == '%' || c == '+' || c == '-')
  let dom := Re.plus (Re.cls fun c => isLetter c || isDigit c || c == '.' || c == '-')
  let l := Re.cls isLetter
  Re.seq loc (Re.seq (Re.chr '@') (Re.seq dom (Re.seq (Re.chr '.')
    (Re.seq l (Re.seq l (Re.star l))))))

/-- Schema pattern of `phone`: `/^\+[1-9]\d{1,14}$/`. -/
def phoneMatch : Re :=
  let d := Re.cls isDigit
  Re.seq (Re.chr '+') (Re.seq (Re.cls fun c => 49 ≤ c.toNat && c.toNat ≤ 57)
    (Re.seq d (Re.upTo d 13)))

/-- Schema pattern of `ipAddress`:
`/^(?:[0-9]{1,3}\.){3}[0-9]{1,3}$|^[0-9a-fA-F:]+$/`. -/
def ipMatch : Re :=
  let d := Re.cls isDigit
  let grp := Re.seq d (Re.upTo d 2)
  let hex := Re.cls fun c =>
    isDigit c || (97 ≤ c.toNat && c.toNat ≤ 102) || (65 ≤ c.toNat && c.toNat ≤ 70) || c == ':'
  Re.alt (Re.seq (Re.times (Re.seq grp (Re.chr '.')) 3) grp) (Re.plus hex)

/-! ## Data model -/

/-- A document of the `User` collection (`userSchema`). -/
structure User where
  id : Str
  name : Str
  email : Str
  passwordHash : Str
  phone : Str
  country : Str
  city : Str
  preferences : List Str
  favoriteArtists : List Str
  favoriteVenues : List Str
  profileComplete : Bool
  accountVerified : Bool
  deriving DecidableEq

/-- A document of the `Token` collection (`tokenSchema`); `expiresAt` is a
time value in milliseconds. -/
structure Token where
  user_id : Str
  token : Str
  expiresAt : Nat
  ipAddress : Option Str
  userAgent : Option Str
  deriving DecidableEq

/-- The two collections. -/
structure Store where
  users : List User
  tokens : List Token
  deriving DecidableEq

/-- Both collections empty. -/
def Store.empty : Store := { users := [], tokens := [] }

/-- The parsed JSON body `req.body`.  `others` holds the keys the handlers
never read, as key and value. -/
structure Body where
  name : Option Str := none
  email : Option Str := none
  password : Option Str := none
  phone : Option Str := none
  country : Option Str := none
  city : Option Str := none
  preferences : Option (List Str) := none
  favoriteArtists : Option (List Str) := none
  favoriteVenues : Option (List Str) := none
  others : List (String × String) := []
  deriving DecidableEq

/-- What a handler reads of the request: `req.body`,
`req.headers.authorization`, `req.ip` and `req.headers['user-agent']`. -/
structure Req where
  body : Body := {}
  authorization : Option Str := none
  ip : Option Str := none
  userAgent : Option Str := none
  deriving DecidableEq

/-- Readings a handler takes from its surroundings: `Date.now()`, the value of
`Math.random().toString(36).substr(2, 9)` and the salt `bcrypt.hash` draws. -/
structure Ctx where
  now : Nat
  random : Str := []
  salt : Str := []
  deriving DecidableEq

/-- Library functions.  `jwtSign uid iat` is
`jwt.sign({ user_id: uid }, SECRET_KEY, { expiresIn: '24h' })` when the clock
reads `iat` seconds: the payload is `user_id`, `iat` and `exp = iat + 86400`,
signed with the configured key, and the call throws (`none`) when no key is
configured. -/
structure Env where
  toLowerCase : Str → Str
  bcryptHash : Str → Str → Str
  bcryptCompare : Str → Str → Bool
  jwtSign : Str → Nat → Option Str

/-- The `user` object of a response; a key the projection leaves out is `none`. -/
structure UserJson where
  id : Str
  name : Str
  email : Str
  phone : Option Str := none
  country : Option Str := none
  city : Option Str := none
  preferences : Option (List Str) := none
  favoriteArtists : Option (List Str) := none
  favoriteVenues : Option (List Str) := none
  profileComplete : Bool
  accountVerified : Bool
  deriving DecidableEq

/-- An HTTP response: status code and the `msg`, `user` and `token` keys. -/
structure Response where
  status : Nat
  msg : String
  user : Option UserJson := none
  token : Option Str := none
  deriving DecidableEq

def TOKEN_EXPIRES_AT_MS : Nat := 24 * 60 * 60 * 1000

/-- The five-key projection of `/create-user` and `/login`. -/
def briefUser (u : User) : UserJson :=
  { id := u.id, name := u.name, email := u.email,
    profileComplete := u.profileComplete, accountVerified := u.accountVerified }

/-- The projection of `/get-user` and `/update-profile`. -/
def fullUser (u : User) : UserJson :=
  { id := u.id, name := u.name, email := u.email, phone := some u.phone,
    country := some u.country, city := some u.city,
    preferences := some u.preferences, favoriteArtists := some u.favoriteArtists,
    favoriteVenues := some u.favoriteVenues,
    profileComplete := u.profileComplete, accountVerified := u.accountVerified }

/-! ## Schemas -/

/-- Validators of `userSchema`: `required` (a non-empty string), `minlength`,
`maxlength`, `match` and the three list validators. -/
def userSchemaValid (u : User) : Bool :=
  !u.id.isEmpty &&
  (!u.name.isEmpty && 2 ≤ jsLength u.name && jsLength u.name ≤ 50 && nameMatch.test u.name) &&
  (!u.email.isEmpty && emailMatch.test u.email) &&
  (!u.passwordHash.isEmpty && 60 ≤ jsLength u.passwordHash) &&
  (!u.phone.isEmpty && phoneMatch.test u.phone) &&
  (!u.country.isEmpty && 2 ≤ jsLength u.country && jsLength u.country ≤ 50) &&
  (!u.city.isEmpty && 2 ≤ jsLength u.city && jsLength u.city ≤ 50) &&
  u.preferences.length ≤ 20 && u.favoriteArtists.length ≤ 100 &&
  u.favoriteVenues.length ≤ 100

/-- The setters of `email` (`lowercase`, `trim`); Mongoose applies them to a
value assigned to a document and to a value in a query filter. -/
def castEmail (env : Env) (e : Str) : Str := env.toLowerCase (jsTrim e)

/-- Outcome of `new User({...}).save()`: validation, the `pre('save')` hook on
`phone`, then the insert under the unique indexes on `email`, `id`, `phone`. -/
def saveNewUser (s : Store) (u : User) : Option Store :=
  if userSchemaValid u = true ∧ (∀ v ∈ s.users, v.phone ≠ u.phone) ∧
      (∀ v ∈ s.users, v.email ≠ u.email) ∧ (∀ v ∈ s.users, v.id ≠ u.id) then
    some { s with users := s.users ++ [u] }
  else none

/-- Validators of `tokenSchema` that do not read the clock. -/
def tokenShapeValid (t : Token) : Bool :=
  (!t.user_id.isEmpty && startsWith ['u', 's', 'r', '_'] t.user_id) &&
  (!t.token.isEmpty && 100 ≤ jsLength t.token && jsLength t.token ≤ 500) &&
  (match t.ipAddress with
    | none => true
    | some ip => ip.isEmpty || ipMatch.test ip) &&
  (match t.userAgent with
    | none => true
    | some ua => jsLength ua ≤ 500)

/-- Outcome of `new Token({...}).save()` at clock reading `now`: validation
(with `expiresAt > new Date()`), the `pre('save')` hook (not expired, the user
exists), then the insert under the unique index on `token`. -/
def saveNewToken (now : Nat) (s : Store) (t : Token) : Option Store :=
  if (tokenShapeValid t = true ∧ now < t.expiresAt) ∧
      (¬ t.expiresAt ≤ now ∧ ∃ u ∈ s.users, u.id = t.user_id) ∧
      (∀ r ∈ s.tokens, r.token ≠ t.token) then
    some { s with tokens := s.tokens ++ [t] }
  else none

/-- Static `cleanExpired`: `deleteMany({ expiresAt: { $lt: new Date() } })`.
The TTL index on `expiresAt` removes expired rows in the same way, at times of
the database's choosing. -/
def cleanExpired (now : Nat) (s : Store) : Store :=
  { s with tokens := s.tokens.filter fun t => !decide (t.expiresAt < now) }

/-- Replace the first element satisfying `p`. -/
def replaceFirst (p : User → Bool) (v : User) : List User → List User
  | [] => []
  | u :: us => if p u then v :: us else u :: replaceFirst p v us

/-! ## Handlers -/

/-- The token the handlers issue: `jwt.sign` at `Date.now()` in seconds,
expiring `TOKEN_EXPIRES_AT_MS` after `Date.now()`. -/
def issueToken (env : Env) (cx : Ctx) (req : Req) (uid : Str) : Option Token :=
  (env.jwtSign uid (cx.now / 1000)).map fun tok =>
    { user_id := uid, token := tok, expiresAt := cx.now + TOKEN_EXPIRES_AT_MS,
      ipAddress := req.ip, userAgent := req.userAgent }

/-- The document `new User({...})` builds from the body; `none` when a
required string is `undefined` (validation then fails). -/
def newUser (env : Env) (cx : Ctx) (b : Body) (e hashedPassword : Str) : Option User :=
  match b.name, b.phone, b.country, b.city with
  | some name, some phone, some country, some city =>
    some { id := ['u', 's', 'r', '_'] ++ cx.random, name := jsTrim name,
           email := castEmail env e, passwordHash := hashedPassword, phone := phone,
           country := jsTrim country, city := jsTrim city,
           preferences := b.preferences.getD [],
           favoriteArtists := b.favoriteArtists.getD [],
           favoriteVenues := b.favoriteVenues.getD [],
           profileComplete := false, accountVerified := false }
  | _, _, _, _ => none

/-- Handler `router.post('/create-user')`. -/
def createUser (env : Env) (cx : Ctx) (req : Req) (s : Store) : Response × Store :=
  match req.body.email with
  | none => ({ status := 400, msg := "Invalid email format" }, s)
  | some e =>
    if emailRegex.test e = false then
      ({ status := 400, msg := "Invalid email format" }, s)
    else
      match s.users.find? (fun u => decide (u.email = castEmail env e)) with
      | some _ => ({ status := 400, msg := "Email already exists" }, s)
      | none =>
        match req.body.password with
        | none => ({ status := 500, msg := "Error creating user" }, s)
        | some password =>
          match newUser env cx req.body e (env.bcryptHash password cx.salt) with
          | none => ({ status := 500, msg := "Error creating user" }, s)
          | some u =>
            match saveNewUser s u with
            | none => ({ status := 500, msg := "Error creating user" }, s)
            | some s1 =>
              match issueToken env cx req u.id with
              | none => ({ status := 500, msg := "Error creating user" }, s1)
              | some t =>
                match saveNewToken cx.now s1 t with
                | none => ({ status := 500, msg := "Error creating user" }, s1)
                | some s2 =>
                  ({ status := 200, msg := "User created successfully",
                     user := some (briefUser u), token := some t.token }, s2)

/-- Handler `router.post('/login')`. -/
def login (env : Env) (cx : Ctx) (req : Req) (s : Store) : Response × Store :=
  match req.body.email with
  | none => ({ status := 400, msg := "Invalid email format" }, s)
  | some e =>
    if emailRegex.test e = false then
      ({ status := 400, msg := "Invalid email format" }, s)
    else
      match s.users.find? (fun u => decide (u.email = castEmail env e)) with
      | none => ({ status := 404, msg := "Email not found" }, s)
      | some user =>
        match req.body.password with
        | none => ({ status := 500, msg := "Login error" }, s)
        | some password =>
          if env.bcryptCompare password user.passwordHash = false then
            ({ status := 401, msg := "Incorrect password" }, s)
          else
            let s1 : Store :=
              { s with tokens := s.tokens.filter fun t => !decide (t.user_id = user.id) }
            match issueToken env cx req user.id with
            | none => ({ status := 500, msg := "Login error" }, s1)
            | some t =>
              match saveNewToken cx.now s1 t with
              | none => ({ status := 500, msg := "Login error" }, s1)
              | some s2 =>
                ({ status := 200, msg := "Login successful",
                   token := some t.token, user := some (briefUser user) }, s2)

/-- Value of `req.headers.authorization?.split(' ')[1]`. -/
def bearerToken (req : Req) : Option Str :=
  req.authorization.bind fun h => (splitOnChar ' ' h).get? 1

/-- Handler `router.get('/get-user')`. -/
def getUser (cx : Ctx) (req : Req) (s : Store) : Response × Store :=
  match bearerToken req with
  | none => ({ status := 401, msg := "No token provided" }, s)
  | some token =>
    if token = [] then ({ status := 401, msg := "No token provided" }, s)
    else
      match s.tokens.find? (fun t => decide (t.token = token)) with
      | none => ({ status := 401, msg := "Invalid token" }, s)
      | some tokenData =>
        if tokenData.expiresAt < cx.now then
          ({ status := 401, msg := "Token expired" },
           { s with tokens := s.tokens.eraseP fun t => decide (t.token = token) })
        else
          match s.users.find? (fun u => decide (u.id = tokenData.user_id)) with
          | none => ({ status := 404, msg := "User not found" }, s)
          | some user =>
            ({ status := 200, msg := "User found", user := some (fullUser user) }, s)

/-- Handler `router.post('/logout')`. -/
def logout (req : Req) (s : Store) : Response × Store :=
  match bearerToken req with
  | none => ({ status := 401, msg := "No token provided" }, s)
  | some token =>
    if token = [] then ({ status := 401, msg := "No token provided" }, s)
    else
      match s.tokens.find? (fun t => decide (t.token = token)) with
      | none => ({ status := 401, msg := "Invalid token" }, s)
      | some _ =>
        ({ status := 200, msg := "Logged out successfully" },
         { s with tokens := s.tokens.eraseP fun t => decide (t.token = token) })

/-- The loop over `allowedUpdates`: every listed field the body defines is
assigned to the document (through the `trim` setter where the schema has one). -/
def applyUpdates (b : Body) (u : User) : User :=
  { u with
    name := (b.name.map jsTrim).getD u.name
    phone := b.phone.getD u.phone
    country := (b.country.map jsTrim).getD u.country
    city := (b.city.map jsTrim).getD u.city
    preferences := b.preferences.getD u.preferences
    favoriteArtists := b.favoriteArtists.getD u.favoriteArtists
    favoriteVenues := b.favoriteVenues.getD u.favoriteVenues }

/-- Value of `hasUpdates` after the loop: the body defines a listed field. -/
def definesAllowed (b : Body) : Bool :=
  b.name.isSome || b.phone.isSome || b.country.isSome || b.city.isSome ||
  b.preferences.isSome || b.favoriteArtists.isSome || b.favoriteVenues.isSome

/-- Value of `user.name && user.phone && user.country && user.city` as a
condition: the four strings are non-empty. -/
def allPresent (u : User) : Bool :=
  !u.name.isEmpty && !u.phone.isEmpty && !u.country.isEmpty && !u.city.isEmpty

/-- Outcome of `user.save()` on the loaded document `old` changed to `new`:
validation, the `pre('save')` hook when `phone` was modified, then the write. -/
def saveUser (s : Store) (old new : User) : Option Store :=
  if userSchemaValid new = true ∧
      (new.phone ≠ old.phone →
        ∀ v ∈ s.users.eraseP (fun (u : User) => decide (u.id = old.id)), v.phone ≠ new.phone) then
    some { s with users := replaceFirst (fun (u : User) => decide (u.id = old.id)) new s.users }
  else none

/-- The assignment `user.profileComplete = true`. -/
def markComplete (u : User) : User := { u with profileComplete := true }

/-- The step "check if profile is now complete": the flag is set when the four
strings are present, and is never cleared. -/
def completeProfile (u : User) : User :=
  if allPresent u = true then markComplete u else u

/-- Handler `router.put('/update-profile')`. -/
def updateProfile (cx : Ctx) (req : Req) (s : Store) : Response × Store :=
  match bearerToken req with
  | none => ({ status := 401, msg := "No token provided" }, s)
  | some token =>
    if token = [] then ({ status := 401, msg := "No token provided" }, s)
    else
      match s.tokens.find? (fun t => decide (t.token = token)) with
      | none => ({ status := 401, msg := "Invalid token" }, s)
      | some tokenData =>
        if tokenData.expiresAt < cx.now then
          ({ status := 401, msg := "Token expired" },
           { s with tokens := s.tokens.eraseP fun t => decide (t.token = token) })
        else
          match s.users.find? (fun u => decide (u.id = tokenData.user_id)) with
          | none => ({ status := 404, msg := "User not found" }, s)
          | some user =>
            let user1 := applyUpdates req.body user
            let user2 := completeProfile user1
            let ok : Response :=
              { status := 200, msg := "Profile updated successfully",
                user := some (fullUser user2) }
            if (definesAllowed req.body || allPresent user1) = true then
              match saveUser s user user2 with
              | none => ({ status := 500, msg := "Error updating profile" }, s)
              | some s1 => (ok, s1)
            else (ok, s)

/-! ## Runs -/

/-- The routes of the router. -/
inductive Route where
  | createUser
  | login
  | getUser
  | logout
  | updateProfile
  deriving DecidableEq

/-- Something that happens to the store: a request, or a sweep of expired
tokens (`cleanExpired`, the TTL index) at some clock reading. -/
inductive Event where
  | request (route : Route) (cx : Ctx) (req : Req)
  | sweep (now : Nat)

/-- Dispatch of a request to its handler. -/
def handle (env : Env) (route : Route) (cx : Ctx) (req : Req) (s : Store) :
    Response × Store :=
  match route with
  | .createUser => createUser env cx req s
  | .login => login env cx req s
  | .getUser => getUser cx req s
  | .logout => logout req s
  | .updateProfile => updateProfile cx req s

/-- The store after one event. -/
def step (env : Env) (s : Store) : Event → Store
  | .request route cx req => (handle env route cx req s).2
  | .sweep now => cleanExpired now s

/-- The store after a sequence of events. -/
def run (env : Env) (s : Store) (evs : List Event) : Store :=
  evs.foldl (step env) s


/-! ## Sessions, invariant and sample data -/

/-- The user a request is authenticated as: the checks `/get-user` and
`/update-profile` make before they act (a bearer token is given, a row with
that value is stored and has not expired, its user is stored). -/
def sessionUser (cx : Ctx) (req : Req) (s : Store) : Option User :=
  match bearerToken req with
  | none => none
  | some token =>
    if token = [] then none
    else
      match s.tokens.find? (fun t => decide (t.token = token)) with
      | none => none
      | some tokenData =>
        if tokenData.expiresAt < cx.now then none
        else s.users.find? (fun u => decide (u.id = tokenData.user_id))

/-- The header `Bearer t`. -/
def bearerHeader (t : Str) : Str := 'B' :: 'e' :: 'a' :: 'r' :: 'e' :: 'r' :: ' ' :: t

/-- What holds of every store the handlers can produce: token values are
unique, stored users and tokens satisfy their schemas, every token belongs to
a stored user, and no user has two tokens. -/
structure Inv (s : Store) : Prop where
  tokenUnique : (s.tokens.map fun t => t.token).Nodup
  usersValid : ∀ u ∈ s.users, userSchemaValid u = true
  tokenShape : ∀ t ∈ s.tokens, tokenShapeValid t = true
  tokenOwner : ∀ t ∈ s.tokens, ∃ u ∈ s.users, u.id = t.user_id
  singleToken : ∀ uid, (s.tokens.filter fun t => decide (t.user_id = uid)).length ≤ 1

/-- Lower-casing of the letters `A` to `Z`. -/
def asciiLower (s : Str) : Str :=
  s.map fun c => if isUpper c then Char.ofNat (c.toNat + 32) else c

/-- A sample library: sixty-character digests, and tokens of a hundred
characters followed by the user id and the issue time in unary. -/
def sampleEnv : Env where
  toLowerCase := asciiLower
  bcryptHash := fun p salt => List.replicate 60 '$' ++ salt ++ p
  bcryptCompare := fun p h => h.drop 60 == p
  jwtSign := fun uid iat =>
    some (List.replicate 100 'j' ++ uid ++ List.replicate iat 'i')

/-- The registration of the spec's scenario. -/
def annRegister : Req :=
  { body :=
      { name := some "Ann Lee".toList, email := some "ann@x.com".toList,
        password := some "Secr3t!".toList, phone := some "+15550001111".toList,
        country := some "US".toList, city := some "NY".toList }
    ip := some "127.0.0.1".toList }

/-- Ann's login request. -/
def annLogin : Req :=
  { body := { email := some "ann@x.com".toList, password := some "Secr3t!".toList } }

/-- The clock and random draws of Ann's registration. -/
def annCtx : Ctx := { now := 0, random := "k3j9x0q2a".toList }

/-- The token Ann's registration returns. -/
def annToken : Str := List.replicate 100 'j' ++ "usr_k3j9x0q2a".toList

/-- A request that carries Ann's token and a body. -/
def annRequest (b : Body) : Req := { body := b, authorization := some (bearerHeader annToken) }

/-- The store after Ann's registration. -/
def annStore : Store := (createUser sampleEnv annCtx annRegister Store.empty).2

/-- The fields `/update-profile` has no way to write. -/
def fixedFields (u : User) : Str × Str × Str × Bool :=
  (u.id, u.email, u.passwordHash, u.accountVerified)

/-- The token a login of Ann returns during second 1 of the clock. -/
def annLoginToken : Str := annToken ++ ['i']

/-- The token row of Ann's registration. -/
def annRow : Token :=
  { user_id := "usr_k3j9x0q2a".toList, token := annToken, expiresAt := TOKEN_EXPIRES_AT_MS,
    ipAddress := some "127.0.0.1".toList, userAgent := none }

/-- Ann's document as registered. -/
def annUser : User :=
  { id := "usr_k3j9x0q2a".toList, name := "Ann Lee".toList, email := "ann@x.com".toList,
    passwordHash := List.replicate 60 '$' ++ "Secr3t!".toList,
    phone := "+15550001111".toList, country := "US".toList, city := "NY".toList,
    preferences := [], favoriteArtists := [], favoriteVenues := [],
    profileComplete := false, accountVerified := false }

/-- The one-event history of Ann's registration. -/
def annHistory : List Event := [Event.request Route.createUser annCtx annRegister]

/-- Ann's registration followed by an `/update-profile` request of hers with
an empty body. -/
def annUpdatedHistory : List Event :=
  annHistory ++ [Event.request Route.updateProfile { now := 5 } (annRequest {})]

/-- A second registration with Ann's email and other values in every other field. -/
def bobRegister : Req :=
  { body :=
      { name := some "Bob Ray".toList, email := some "ann@x.com".toList,
        password := some "0ther-pw".toList, phone := some "+442071234567".toList,
        country := some "UK".toList, city := some "Leeds".toList,
        preferences := some ["jazz".toList] } }

/-! ## Outcomes of the store operations -/

theorem saveNewUser_some {s s1 : Store} {u : User} (h : saveNewUser s u = some s1) :
    s1 = { s with users := s.users ++ [u] } ∧ userSchemaValid u = true ∧
      ∀ v ∈ s.users, v.id ≠ u.id := by
  unfold saveNewUser at h
  split at h
  · rename_i hc
    exact ⟨(Option.some.inj h).symm, hc.1, hc.2.2.2⟩
  · cases h

theorem saveNewToken_some {now : Nat} {s s1 : Store} {t : Token}
    (h : saveNewToken now s t = some s1) :
    s1 = { s with tokens := s.tokens ++ [t] } ∧ tokenShapeValid t = true ∧
      (∃ u ∈ s.users, u.id = t.user_id) ∧ ∀ r ∈ s.tokens, r.token ≠ t.token := by
  unfold saveNewToken at h
  split at h
  · rename_i hc
    exact ⟨(Option.some.inj h).symm, hc.1.1, hc.2.1.2, hc.2.2⟩
  · cases h

theorem issueToken_some {env : Env} {cx : Ctx} {req : Req} {uid : Str} {t : Token}
    (h : issueToken env cx req uid = some t) :
    t.user_id = uid ∧ env.jwtSign uid (cx.now / 1000) = some t.token ∧
      t.expiresAt = cx.now + TOKEN_EXPIRES_AT_MS := by
  unfold issueToken at h
  cases hj : env.jwtSign uid (cx.now / 1000) with
  | none => simp [hj] at h
  | some tok =>
    simp [hj] at h
    subst h
    exact ⟨rfl, rfl, rfl⟩

/-- The store after `/create-user`: unchanged, or the new user alone was
inserted, or the new user and a token for it. -/
theorem createUser_store (env : Env) (cx : Ctx) (req : Req) (s : Store) :
    (createUser env cx req s).2 = s ∨
    ∃ u s1, saveNewUser s u = some s1 ∧
      ((createUser env cx req s).2 = s1 ∨
       ∃ t s2, t.user_id = u.id ∧ saveNewToken cx.now s1 t = some s2 ∧
         (createUser env cx req s).2 = s2) := by
  unfold createUser
  split
  · exact Or.inl rfl
  · split
    · exact Or.inl rfl
    · split
      · exact Or.inl rfl
      · split
        · exact Or.inl rfl
        · split
          · exact Or.inl rfl
          · rename_i u _
            split
            · exact Or.inl rfl
            · rename_i s1 hs1
              refine Or.inr ⟨u, s1, hs1, ?_⟩
              split
              · exact Or.inl rfl
              · rename_i t ht
                split
                · exact Or.inl rfl
                · rename_i s2 hs2
                  exact Or.inr ⟨t, s2, (issueToken_some ht).1, hs2, rfl⟩


/-- What a 200 answer of `/create-user` means. -/
theorem createUser_ok {env : Env} {cx : Ctx} {req : Req} {s : Store}
    (h : (createUser env cx req s).1.status = 200) :
    ∃ e password u s1 t s2,
      req.body.email = some e ∧ emailRegex.test e = true ∧
      s.users.find? (fun u => decide (u.email = castEmail env e)) = none ∧
      req.body.password = some password ∧
      newUser env cx req.body e (env.bcryptHash password cx.salt) = some u ∧
      saveNewUser s u = some s1 ∧ issueToken env cx req u.id = some t ∧
      saveNewToken cx.now s1 t = some s2 ∧
      createUser env cx req s =
        ({ status := 200, msg := "User created successfully",
           user := some (briefUser u), token := some t.token }, s2) := by
  unfold createUser at h ⊢
  split at h
  · simp at h
  · rename_i e he
    split at h
    · simp at h
    · rename_i hre
      split at h
      · simp at h
      · rename_i hfind
        split at h
        · simp at h
        · rename_i password hpw
          split at h
          · simp at h
          · rename_i u hu
            split at h
            · simp at h
            · rename_i s1 hs1
              split at h
              · simp at h
              · rename_i t ht
                split at h
                · simp at h
                · rename_i s2 hs2
                  refine ⟨e, password, u, s1, t, s2, he, by simpa using hre, hfind, hpw,
                    hu, hs1, ht, hs2, ?_⟩
                  simp [he, hre, hfind, hpw, hu, hs1, ht, hs2]

/-- The store after `/login`: unchanged, or the user's tokens were deleted,
or they were deleted and one token for the user was inserted. -/
theorem login_store (env : Env) (cx : Ctx) (req : Req) (s : Store) :
    (login env cx req s).2 = s ∨
    ∃ uid, (∃ u ∈ s.users, u.id = uid) ∧
      ((login env cx req s).2 =
          { s with tokens := s.tokens.filter fun t => !decide (t.user_id = uid) } ∨
       ∃ t s2, t.user_id = uid ∧
         saveNewToken cx.now
           { s with tokens := s.tokens.filter fun t => !decide (t.user_id = uid) } t = some s2 ∧
         (login env cx req s).2 = s2) := by
  unfold login
  split
  · exact Or.inl rfl
  · split
    · exact Or.inl rfl
    · split
      · exact Or.inl rfl
      · rename_i user hfind
        split
        · exact Or.inl rfl
        · split
          · exact Or.inl rfl
          · refine Or.inr ⟨user.id, ⟨user, List.mem_of_find?_eq_some hfind, rfl⟩, ?_⟩
            dsimp only
            split
            · exact Or.inl rfl
            · rename_i t ht
              split
              · exact Or.inl rfl
              · rename_i s2 hs2
                exact Or.inr ⟨t, s2, (issueToken_some ht).1, hs2, rfl⟩

/-- What a 200 answer of `/login` means. -/
theorem login_ok {env : Env} {cx : Ctx} {req : Req} {s : Store}
    (h : (login env cx req s).1.status = 200) :
    ∃ e password user t s2,
      req.body.email = some e ∧ emailRegex.test e = true ∧
      s.users.find? (fun u => decide (u.email = castEmail env e)) = some user ∧
      req.body.password = some password ∧
      env.bcryptCompare password user.passwordHash = true ∧
      issueToken env cx req user.id = some t ∧
      saveNewToken cx.now
        { s with tokens := s.tokens.filter fun t => !decide (t.user_id = user.id) } t =
          some s2 ∧
      login env cx req s =
        ({ status := 200, msg := "Login successful",
           token := some t.token, user := some (briefUser user) }, s2) := by
  unfold login at h ⊢
  split at h
  · simp at h
  · rename_i e he
    split at h
    · simp at h
    · rename_i hre
      split at h
      · simp at h
      · rename_i user hfind
        split at h
        · simp at h
        · rename_i password hpw
          split at h
          · simp at h
          · rename_i hcmp
            dsimp only at h
            split at h
            · simp at h
            · rename_i t ht
              split at h
              · simp at h
              · rename_i s2 hs2
                refine ⟨e, password, user, t, s2, he, by simpa using hre, hfind, hpw,
                  by simpa using hcmp, ht, hs2, ?_⟩
                simp [he, hre, hfind, hpw, hcmp, ht, hs2]


/-- The store after `/get-user`: unchanged, or one token row was deleted. -/
theorem getUser_store (cx : Ctx) (req : Req) (s : Store) :
    (getUser cx req s).2 = s ∨
    ∃ token, (getUser cx req s).2 =
      { s with tokens := s.tokens.eraseP fun t => decide (t.token = token) } := by
  unfold getUser
  split
  · exact Or.inl rfl
  · rename_i token _
    split
    · exact Or.inl rfl
    · split
      · exact Or.inl rfl
      · split
        · exact Or.inr ⟨token, rfl⟩
        · split <;> exact Or.inl rfl

/-- The store after `/logout`: unchanged, or one token row was deleted. -/
theorem logout_store (req : Req) (s : Store) :
    (logout req s).2 = s ∨
    ∃ token, (logout req s).2 =
      { s with tokens := s.tokens.eraseP fun t => decide (t.token = token) } := by
  unfold logout
  split
  · exact Or.inl rfl
  · rename_i token _
    split
    · exact Or.inl rfl
    · split
      · exact Or.inl rfl
      · exact Or.inr ⟨token, rfl⟩

theorem completeProfile_id (u : User) : (completeProfile u).id = u.id := by
  unfold completeProfile; split <;> rfl

theorem applyUpdates_id (b : Body) (u : User) : (applyUpdates b u).id = u.id := rfl

/-- The store after `/update-profile`: unchanged, or one token row was
deleted, or the document of the token's user was saved. -/
theorem updateProfile_store (cx : Ctx) (req : Req) (s : Store) :
    (updateProfile cx req s).2 = s ∨
    (∃ token, (updateProfile cx req s).2 =
      { s with tokens := s.tokens.eraseP fun t => decide (t.token = token) }) ∨
    ∃ old s1, s.users.find? (fun u => decide (u.id = old.id)) = some old ∧
      saveUser s old (completeProfile (applyUpdates req.body old)) = some s1 ∧
      (updateProfile cx req s).2 = s1 := by
  unfold updateProfile
  split
  · exact Or.inl rfl
  · rename_i token _
    split
    · exact Or.inl rfl
    · split
      · exact Or.inl rfl
      · split
        · exact Or.inr (Or.inl ⟨token, rfl⟩)
        · split
          · exact Or.inl rfl
          · rename_i td _ _ _ user hfind
            have hid : user.id = td.user_id := by simpa using List.find?_some hfind
            dsimp only
            split
            · split
              · exact Or.inl rfl
              · rename_i s1 hs1
                exact Or.inr (Or.inr ⟨user, s1, by rw [hid]; exact hfind, hs1, rfl⟩)
            · exact Or.inl rfl

theorem saveUser_some {s s1 : Store} {old new : User} (h : saveUser s old new = some s1) :
    s1 = { s with users := replaceFirst (fun u => decide (u.id = old.id)) new s.users } ∧
      userSchemaValid new = true := by
  unfold saveUser at h
  split at h
  · rename_i hc
    exact ⟨(Option.some.inj h).symm, hc.1⟩
  · cases h

/-! ## Invariant of the store -/

theorem Inv.init : Inv Store.empty :=
  ⟨by simp [Store.empty], by simp [Store.empty], by simp [Store.empty],
    by simp [Store.empty], by simp [Store.empty]⟩

theorem Inv.sublist {s : Store} (h : Inv s) {ts : List Token} (hs : ts.Sublist s.tokens) :
    Inv { s with tokens := ts } where
  tokenUnique := (hs.map _).nodup h.tokenUnique
  usersValid := h.usersValid
  tokenShape := fun t ht => h.tokenShape t (hs.subset ht)
  tokenOwner := fun t ht => h.tokenOwner t (hs.subset ht)
  singleToken := fun uid => le_trans (hs.filter _).length_le (h.singleToken uid)

theorem Inv.addUser {s : Store} (h : Inv s) {u : User} (hu : userSchemaValid u = true) :
    Inv { s with users := s.users ++ [u] } where
  tokenUnique := h.tokenUnique
  usersValid := by
    intro v hv
    rcases List.mem_append.1 hv with hv | hv
    · exact h.usersValid v hv
    · rw [List.mem_singleton.1 hv]; exact hu
  tokenShape := h.tokenShape
  tokenOwner := by
    intro t ht
    obtain ⟨v, hv, hid⟩ := h.tokenOwner t ht
    exact ⟨v, List.mem_append_left _ hv, hid⟩
  singleToken := h.singleToken

theorem Inv.addToken {s : Store} (h : Inv s) {t : Token}
    (hshape : tokenShapeValid t = true) (hown : ∃ u ∈ s.users, u.id = t.user_id)
    (hfresh : ∀ r ∈ s.tokens, r.token ≠ t.token)
    (hone : ∀ r ∈ s.tokens, r.user_id ≠ t.user_id) :
    Inv { s with tokens := s.tokens ++ [t] } where
  tokenUnique := by
    simp only [List.map_append, List.map_cons, List.map_nil]
    refine List.Nodup.append h.tokenUnique (List.nodup_singleton _) ?_
    intro x hx hx1
    obtain ⟨r, hr, rfl⟩ := List.mem_map.1 hx
    exact hfresh r hr (List.mem_singleton.1 hx1)
  usersValid := h.usersValid
  tokenShape := by
    intro r hr
    rcases List.mem_append.1 hr with hr | hr
    · exact h.tokenShape r hr
    · rw [List.mem_singleton.1 hr]; exact hshape
  tokenOwner := by
    intro r hr
    rcases List.mem_append.1 hr with hr | hr
    · exact h.tokenOwner r hr
    · rw [List.mem_singleton.1 hr]; exact hown
  singleToken := by
    intro uid
    simp only [List.filter_append, List.length_append]
    by_cases hu : t.user_id = uid
    · have h0 : s.tokens.filter (fun r => decide (r.user_id = uid)) = [] := by
        rw [List.filter_eq_nil_iff]
        intro r hr
        simpa [← hu] using hone r hr
      simp [h0, hu]
    · have := h.singleToken uid
      simpa [List.filter_cons, hu] using this

theorem mem_replaceFirst {p : User → Bool} {v : User} {us : List User} {x : User}
    (h : x ∈ replaceFirst p v us) : x ∈ us ∨ x = v := by
  induction us with
  | nil => simp [replaceFirst] at h
  | cons u us ih =>
    unfold replaceFirst at h
    split at h
    · rcases List.mem_cons.1 h with h | h
      · exact Or.inr h
      · exact Or.inl (List.mem_cons_of_mem _ h)
    · rcases List.mem_cons.1 h with h | h
      · exact Or.inl (h ▸ List.mem_cons_self _ _)
      · rcases ih h with h | h
        · exact Or.inl (List.mem_cons_of_mem _ h)
        · exact Or.inr h

theorem map_id_replaceFirst (uid : Str) (v : User) (hv : v.id = uid) (us : List User) :
    (replaceFirst (fun u => decide (u.id = uid)) v us).map (fun u => u.id) =
      us.map fun u => u.id := by
  induction us with
  | nil => rfl
  | cons u us ih =>
    unfold replaceFirst
    split
    · rename_i hp
      simp at hp
      simp [hv, hp]
    · simp [ih]

theorem Inv.replaceUser {s : Store} (h : Inv s) {old new : User}
    (hid : new.id = old.id) (hv : userSchemaValid new = true) :
    Inv { s with users := replaceFirst (fun u => decide (u.id = old.id)) new s.users } where
  tokenUnique := h.tokenUnique
  usersValid := by
    intro u hu
    rcases mem_replaceFirst hu with hu | hu
    · exact h.usersValid u hu
    · rw [hu]; exact hv
  tokenShape := h.tokenShape
  tokenOwner := by
    intro t ht
    obtain ⟨u, hu, hut⟩ := h.tokenOwner t ht
    have hm : t.user_id ∈ (replaceFirst (fun u => decide (u.id = old.id)) new s.users).map
        fun u => u.id := by
      rw [map_id_replaceFirst old.id new hid]
      exact List.mem_map.2 ⟨u, hu, hut⟩
    obtain ⟨w, hw, hwt⟩ := List.mem_map.1 hm
    exact ⟨w, hw, hwt⟩
  singleToken := h.singleToken


theorem Inv.of_createUser {s : Store} (h : Inv s) (env : Env) (cx : Ctx) (req : Req) :
    Inv (createUser env cx req s).2 := by
  rcases createUser_store env cx req s with h0 | ⟨u, s1, hs1, h1⟩
  · rw [h0]; exact h
  · obtain ⟨rfl, hvalid, hid⟩ := saveNewUser_some hs1
    have hI := h.addUser hvalid
    rcases h1 with h1 | ⟨t, s2, htu, hs2, h2⟩
    · rw [h1]; exact hI
    · obtain ⟨rfl, hshape, hown, hfresh⟩ := saveNewToken_some hs2
      rw [h2]
      refine hI.addToken hshape hown hfresh ?_
      intro r hr hru
      obtain ⟨v, hv, hvr⟩ := h.tokenOwner r hr
      exact hid v hv (by rw [hvr, hru, htu])

theorem Inv.of_login {s : Store} (h : Inv s) (env : Env) (cx : Ctx) (req : Req) :
    Inv (login env cx req s).2 := by
  rcases login_store env cx req s with h0 | ⟨uid, _, h1⟩
  · rw [h0]; exact h
  · have hI : Inv { s with tokens := s.tokens.filter fun t => !decide (t.user_id = uid) } :=
      h.sublist (List.filter_sublist _)
    rcases h1 with h1 | ⟨t, s2, htu, hs2, h2⟩
    · rw [h1]; exact hI
    · obtain ⟨rfl, hshape, hown, hfresh⟩ := saveNewToken_some hs2
      rw [h2]
      refine hI.addToken hshape hown hfresh ?_
      intro r hr hru
      have := (List.mem_filter.1 hr).2
      simp [hru, htu] at this

theorem Inv.of_step {s : Store} (h : Inv s) (env : Env) (e : Event) : Inv (step env s e) := by
  cases e with
  | sweep now => exact h.sublist (List.filter_sublist _)
  | request route cx req =>
    cases route with
    | createUser => exact h.of_createUser env cx req
    | login => exact h.of_login env cx req
    | getUser =>
      show Inv (getUser cx req s).2
      rcases getUser_store cx req s with h0 | ⟨token, h0⟩
      · rw [h0]; exact h
      · rw [h0]; exact h.sublist (List.eraseP_sublist _)
    | logout =>
      show Inv (logout req s).2
      rcases logout_store req s with h0 | ⟨token, h0⟩
      · rw [h0]; exact h
      · rw [h0]; exact h.sublist (List.eraseP_sublist _)
    | updateProfile =>
      show Inv (updateProfile cx req s).2
      rcases updateProfile_store cx req s with h0 | ⟨token, h0⟩ | ⟨old, s1, _, hs1, h0⟩
      · rw [h0]; exact h
      · rw [h0]; exact h.sublist (List.eraseP_sublist _)
      · obtain ⟨rfl, hv⟩ := saveUser_some hs1
        rw [h0]
        exact h.replaceUser ((completeProfile_id _).trans (applyUpdates_id _ _)) hv

/-- Every store reached from the empty one satisfies the invariant. -/
theorem Inv.of_run (env : Env) (evs : List Event) : Inv (run env Store.empty evs) := by
  suffices H : ∀ s, Inv s → Inv (run env s evs) from H _ Inv.init
  induction evs with
  | nil => intro s h; exact h
  | cons e evs ih => intro s h; exact ih _ (h.of_step env e)

/-- C1. In every store reached from the empty one by any sequence of
create-user, login, get-user, logout and update-profile requests (and sweeps of
expired tokens), the token collection holds at most one row per user id. -/
theorem single_active_token (env : Env) (evs : List Event) (uid : Str) :
    ((run env Store.empty evs).tokens.filter fun t => decide (t.user_id = uid)).length ≤ 1 :=
  (Inv.of_run env evs).singleToken uid

theorem splitOnChar_not_mem {sep : Char} {t : Str} (h : sep ∉ t) : splitOnChar sep t = [t] := by
  induction t with
  | nil => rfl
  | cons c cs ih =>
    have hc : c ≠ sep := fun e => h (e ▸ List.mem_cons_self _ _)
    have hcs : sep ∉ cs := fun m => h (List.mem_cons_of_mem _ m)
    simp [splitOnChar, hc, ih hcs]

theorem bearerToken_bearerHeader {req : Req} {t : Str} (hs : ' ' ∉ t)
    (h : req.authorization = some (bearerHeader t)) : bearerToken req = some t := by
  simp [bearerToken, h, bearerHeader, splitOnChar, splitOnChar_not_mem hs]

theorem getUser_live (cx : Ctx) (req : Req) (s : Store) (token : Str) (td : Token) (user : User)
    (hb : bearerToken req = some token) (hne : token ≠ [])
    (hf : s.tokens.find? (fun t => decide (t.token = token)) = some td)
    (hexp : ¬ td.expiresAt < cx.now)
    (hu : s.users.find? (fun u => decide (u.id = td.user_id)) = some user) :
    getUser cx req s = ({ status := 200, msg := "User found", user := some (fullUser user) }, s) := by
  simp [getUser, hb, hne, hf, hexp, hu]

theorem tokenShapeValid_ne_nil {t : Token} (h : tokenShapeValid t = true) : t.token ≠ [] := by
  intro e
  simp [tokenShapeValid, e] at h

/-- C3. When `/create-user` answers 200 with user projection `u` and token `t`,
a `/get-user` request with bearer `t` on the resulting store, at a clock
reading within the token's lifetime, answers 200 with a user of the same id. -/
theorem register_then_validate (env : Env) (cx cx1 : Ctx) (req req1 : Req) (s : Store)
    (u : UserJson) (t : Str)
    (hok : (createUser env cx req s).1.status = 200)
    (hu : (createUser env cx req s).1.user = some u)
    (ht : (createUser env cx req s).1.token = some t)
    (hsp : ' ' ∉ t)
    (hauth : req1.authorization = some (bearerHeader t))
    (hnow : cx1.now ≤ cx.now + TOKEN_EXPIRES_AT_MS) :
    ∃ v, getUser cx1 req1 (createUser env cx req s).2 =
        ({ status := 200, msg := "User found", user := some v }, (createUser env cx req s).2) ∧
      v.id = u.id := by
  obtain ⟨e, password, usr, s1, tok, s2, -, -, -, -, -, hs1, htok, hs2, hres⟩ := createUser_ok hok
  obtain ⟨rfl, -, hid⟩ := saveNewUser_some hs1
  obtain ⟨rfl, hshape, -, hfresh⟩ := saveNewToken_some hs2
  obtain ⟨huid, -, hexp⟩ := issueToken_some htok
  rw [hres] at hu ht ⊢
  simp only [Option.some.injEq] at hu ht
  subst hu ht
  refine ⟨fullUser usr, ?_, rfl⟩
  refine getUser_live _ _ _ _ tok _ (bearerToken_bearerHeader hsp hauth)
    (tokenShapeValid_ne_nil hshape) ?_ ?_ ?_
  · have hn : s.tokens.find? (fun r => decide (r.token = tok.token)) = none := by
      rw [List.find?_eq_none]
      intro r hr
      simpa using hfresh r hr
    simp [List.find?_append, hn]
  · rw [hexp]; omega
  · have hn : s.users.find? (fun v => decide (v.id = tok.user_id)) = none := by
      rw [List.find?_eq_none]
      intro v hv
      simpa [huid] using hid v hv
    rw [huid] at hn
    simp [List.find?_append, hn, huid]

/-! ## Sessions -/

theorem sessionUser_some {cx : Ctx} {req : Req} {s : Store} {user : User}
    (h : sessionUser cx req s = some user) :
    ∃ token td, bearerToken req = some token ∧ token ≠ [] ∧
      s.tokens.find? (fun t => decide (t.token = token)) = some td ∧
      ¬ td.expiresAt < cx.now ∧
      s.users.find? (fun u => decide (u.id = td.user_id)) = some user := by
  unfold sessionUser at h
  split at h
  · cases h
  · rename_i token hb
    split at h
    · cases h
    · rename_i hne
      split at h
      · cases h
      · rename_i td hf
        split at h
        · cases h
        · rename_i hexp
          exact ⟨token, td, hb, hne, hf, hexp, h⟩

theorem sessionUser_find {cx : Ctx} {req : Req} {s : Store} {user : User}
    (h : sessionUser cx req s = some user) :
    s.users.find? (fun u => decide (u.id = user.id)) = some user := by
  obtain ⟨token, td, -, -, -, -, hu⟩ := sessionUser_some h
  have hid : user.id = td.user_id := by simpa using List.find?_some hu
  rw [hid]; exact hu

/-- With a session, `/get-user` answers 200 with the session's user. -/
theorem getUser_of_session {cx : Ctx} {req : Req} {s : Store} {user : User}
    (h : sessionUser cx req s = some user) :
    getUser cx req s =
      ({ status := 200, msg := "User found", user := some (fullUser user) }, s) := by
  obtain ⟨token, td, hb, hne, hf, hexp, hu⟩ := sessionUser_some h
  exact getUser_live _ _ _ _ _ _ hb hne hf hexp hu

/-- With a session, `/update-profile` is the update of the session's user. -/
theorem updateProfile_of_session {cx : Ctx} {req : Req} {s : Store} {user : User}
    (h : sessionUser cx req s = some user) :
    updateProfile cx req s =
      if (definesAllowed req.body || allPresent (applyUpdates req.body user)) = true then
        match saveUser s user (completeProfile (applyUpdates req.body user)) with
        | none => ({ status := 500, msg := "Error updating profile" }, s)
        | some s1 =>
          ({ status := 200, msg := "Profile updated successfully",
             user := some (fullUser (completeProfile (applyUpdates req.body user))) }, s1)
      else
        ({ status := 200, msg := "Profile updated successfully",
           user := some (fullUser (completeProfile (applyUpdates req.body user))) }, s) := by
  obtain ⟨token, td, hb, hne, hf, hexp, hu⟩ := sessionUser_some h
  simp only [updateProfile, hb, hne, hf, hexp, hu, if_false]

/-! ## Token rows -/

theorem eraseP_token_absent {tok : Str} {ts : List Token}
    (h : (ts.map fun t => t.token).Nodup) :
    ∀ r ∈ ts.eraseP (fun t => decide (t.token = tok)), r.token ≠ tok := by
  induction ts with
  | nil => simp
  | cons t ts ih =>
    simp only [List.map_cons, List.nodup_cons] at h
    intro r hr
    by_cases ht : t.token = tok
    · rw [List.eraseP_cons_of_pos (by simpa using ht)] at hr
      intro hrt
      exact h.1 (List.mem_map.2 ⟨r, hr, by rw [hrt, ht]⟩)
    · rw [List.eraseP_cons_of_neg (by simpa using ht)] at hr
      rcases List.mem_cons.1 hr with hr | hr
      · rw [hr]; exact ht
      · exact ih h.2 r hr

theorem find_token_of_mem {r : Token} {ts : List Token}
    (h : (ts.map fun t => t.token).Nodup) (hr : r ∈ ts) :
    ts.find? (fun t => decide (t.token = r.token)) = some r := by
  induction ts with
  | nil => cases hr
  | cons t ts ih =>
    simp only [List.map_cons, List.nodup_cons] at h
    rcases List.mem_cons.1 hr with hr | hr
    · subst hr; simp
    · have hne : t.token ≠ r.token := fun e => h.1 (e ▸ List.mem_map.2 ⟨r, hr, rfl⟩)
      rw [List.find?_cons_of_neg _ (by simpa using hne)]
      exact ih h.2 hr

/-- C5. In a store whose token values are unique (the unique index on
`token`), when `/logout` answers 200, a `/get-user` request that carries the
same bearer token answers 401 on the resulting store, at every clock reading. -/
theorem logout_then_validate (cx : Ctx) (req req1 : Req) (s : Store)
    (huniq : (s.tokens.map fun t => t.token).Nodup)
    (hok : (logout req s).1.status = 200)
    (hsame : bearerToken req1 = bearerToken req) :
    (getUser cx req1 (logout req s).2).1.status = 401 := by
  unfold logout at hok ⊢
  split at hok
  · simp at hok
  · rename_i token hb
    split at hok
    · simp at hok
    · rename_i hne
      split at hok
      · simp at hok
      · have hn : (s.tokens.eraseP fun t => decide (t.token = token)).find?
            (fun t => decide (t.token = token)) = none := by
          rw [List.find?_eq_none]
          intro r hr
          simpa using eraseP_token_absent huniq r hr
        simp [getUser, hsame, hb, hne, hn]

/-- C4. In every store reached from the empty one, for a stored token row
whose `expiresAt` is earlier than the clock reading, a `/get-user` request
that carries that token value answers 401, and afterwards no row of the token
collection has that value. -/
theorem expired_token_rejected (env : Env) (evs : List Event) (cx : Ctx) (req : Req)
    (r : Token)
    (hr : r ∈ (run env Store.empty evs).tokens)
    (hexp : r.expiresAt < cx.now)
    (hb : bearerToken req = some r.token) :
    (getUser cx req (run env Store.empty evs)).1.status = 401 ∧
      ∀ q ∈ (getUser cx req (run env Store.empty evs)).2.tokens, q.token ≠ r.token := by
  have hI := Inv.of_run env evs
  have hne := tokenShapeValid_ne_nil (hI.tokenShape r hr)
  have hf := find_token_of_mem hI.tokenUnique hr
  have hres : getUser cx req (run env Store.empty evs) =
      ({ status := 401, msg := "Token expired" },
       { run env Store.empty evs with
         tokens := (run env Store.empty evs).tokens.eraseP
           fun t => decide (t.token = r.token) }) := by
    simp [getUser, hb, hne, hf, hexp]
  rw [hres]
  exact ⟨rfl, eraseP_token_absent hI.tokenUnique⟩


/-- A 200 answer of `/login` carries the signature of the found user's id at
the clock's second, and leaves the user collection as it was. -/
theorem login_token {env : Env} {cx : Ctx} {req : Req} {s : Store}
    (h : (login env cx req s).1.status = 200) :
    ∃ e user, req.body.email = some e ∧
      s.users.find? (fun u => decide (u.email = castEmail env e)) = some user ∧
      (login env cx req s).1.token = env.jwtSign user.id (cx.now / 1000) ∧
      (login env cx req s).2.users = s.users := by
  obtain ⟨e, pw, user, tok, s2, he, -, hfind, -, -, hiss, hsave, hres⟩ := login_ok h
  obtain ⟨rfl, -, -, -⟩ := saveNewToken_some hsave
  obtain ⟨-, hj, -⟩ := issueToken_some hiss
  exact ⟨e, user, he, hfind, by rw [hres, hj], by rw [hres]⟩

/-- After a 200 answer of `/login`, `/get-user` with the returned token
answers 200 for as long as the token has not expired. -/
theorem login_then_getUser {env : Env} {cx cx2 : Ctx} {req req2 : Req} {s : Store} {t : Str}
    (h : (login env cx req s).1.status = 200)
    (ht : (login env cx req s).1.token = some t)
    (hsp : ' ' ∉ t)
    (hauth : req2.authorization = some (bearerHeader t))
    (hnow : cx2.now ≤ cx.now + TOKEN_EXPIRES_AT_MS) :
    (getUser cx2 req2 (login env cx req s).2).1.status = 200 := by
  obtain ⟨e, pw, user, tok, s2, -, -, hfind, -, -, hiss, hsave, hres⟩ := login_ok h
  obtain ⟨huid, -, hexp⟩ := issueToken_some hiss
  generalize hs1 : ({ s with tokens := s.tokens.filter fun t => !decide (t.user_id = user.id) }
    : Store) = s1 at hsave
  have hus : s1.users = s.users := by rw [← hs1]
  obtain ⟨rfl, hshape, -, hfresh⟩ := saveNewToken_some hsave
  rw [hres] at ht ⊢
  simp only [Option.some.injEq] at ht
  subst ht
  have hmem : user ∈ s1.users := hus ▸ List.mem_of_find?_eq_some hfind
  cases hq : s1.users.find? (fun u => decide (u.id = tok.user_id)) with
  | none =>
    rw [List.find?_eq_none] at hq
    exact absurd (by simpa using huid.symm) (hq user hmem)
  | some usr =>
    have hn : s1.tokens.find? (fun r => decide (r.token = tok.token)) = none := by
      rw [List.find?_eq_none]
      intro r hr
      simpa using hfresh r hr
    have hlive := getUser_live cx2 req2
      { users := s1.users, tokens := s1.tokens ++ [tok] } _ tok usr
      (bearerToken_bearerHeader hsp hauth) (tokenShapeValid_ne_nil hshape)
      (by simp [List.find?_append, hn]) (by rw [hexp]; omega) hq
    dsimp only
    rw [hlive]

/-- The token collection after a 200 answer of `/login`: the rows of other
users, none of which has the new token's value, followed by the new row. -/
theorem login_tokens {env : Env} {cx : Ctx} {req : Req} {s : Store}
    (h : (login env cx req s).1.status = 200) :
    ∃ e user tok, req.body.email = some e ∧
      s.users.find? (fun u => decide (u.email = castEmail env e)) = some user ∧
      tok.user_id = user.id ∧ (login env cx req s).1.token = some tok.token ∧
      (login env cx req s).2.tokens =
        (s.tokens.filter fun t => !decide (t.user_id = user.id)) ++ [tok] ∧
      (∀ r ∈ s.tokens.filter (fun t => !decide (t.user_id = user.id)), r.token ≠ tok.token) ∧
      (login env cx req s).2.users = s.users := by
  obtain ⟨e, pw, user, tok, s2, he, -, hfind, -, -, hiss, hsave, hres⟩ := login_ok h
  obtain ⟨rfl, -, -, hfresh⟩ := saveNewToken_some hsave
  obtain ⟨huid, -, -⟩ := issueToken_some hiss
  exact ⟨e, user, tok, he, hfind, huid, by rw [hres], by rw [hres], hfresh, by rw [hres]⟩

/-- When a second login of the same account returns a different token value,
the token returned by the first login is refused by `/get-user` afterwards. -/
theorem relogin_other_token (env : Env) (cx0 cx1 cx2 : Ctx) (req0 req1 req2 : Req)
    (s : Store) (t1 t2 : Str)
    (hok0 : (login env cx0 req0 s).1.status = 200)
    (ht1 : (login env cx0 req0 s).1.token = some t1)
    (hemail : req1.body.email = req0.body.email)
    (hok1 : (login env cx1 req1 (login env cx0 req0 s).2).1.status = 200)
    (ht2 : (login env cx1 req1 (login env cx0 req0 s).2).1.token = some t2)
    (hne : t2 ≠ t1)
    (hsp : ' ' ∉ t1)
    (hauth : req2.authorization = some (bearerHeader t1)) :
    (getUser cx2 req2 (login env cx1 req1 (login env cx0 req0 s).2).2).1.status = 401 := by
  obtain ⟨e0, user0, tok0, he0, hfind0, huid0, htok0, hts0, hfresh0, hus0⟩ := login_tokens hok0
  obtain ⟨e1, user1, tok1, he1, hfind1, -, htok1, hts1, -, -⟩ := login_tokens hok1
  have hee : e1 = e0 := by
    rw [hemail, he0] at he1
    exact (Option.some.inj he1).symm
  subst hee
  have huu : user1 = user0 := by
    rw [hus0, hfind0] at hfind1
    exact (Option.some.inj hfind1).symm
  subst huu
  have e0t : tok0.token = t1 := by rw [htok0] at ht1; exact Option.some.inj ht1
  have e1t : tok1.token = t2 := by rw [htok1] at ht2; exact Option.some.inj ht2
  have hn : (login env cx1 req1 (login env cx0 req0 s).2).2.tokens.find?
      (fun r => decide (r.token = t1)) = none := by
    rw [List.find?_eq_none]
    intro r hr
    rw [hts1, hts0] at hr
    simp only [List.filter_append, List.mem_append, List.mem_filter, List.mem_cons,
      List.mem_singleton, List.not_mem_nil, or_false] at hr
    rcases hr with (⟨hr, -⟩ | ⟨hr, hru⟩) | hr
    · have := hfresh0 r (List.mem_filter.2 hr)
      simpa [e0t] using this
    · subst hr
      simp [huid0] at hru
    · subst hr
      simpa [e1t] using hne
  have hb := bearerToken_bearerHeader hsp hauth
  by_cases hnil : t1 = []
  · simp [getUser, hb, hnil]
  · simp [getUser, hb, hnil, hn]

/-- C2 (what the code does). Two logins of one account within the same second
of the clock return the same token value, so the token returned by the first
is still accepted by `/get-user` after the second. -/
theorem relogin_same_second (env : Env) (cx0 cx1 cx2 : Ctx) (req0 req1 req2 : Req)
    (s : Store) (t1 : Str)
    (hok0 : (login env cx0 req0 s).1.status = 200)
    (ht1 : (login env cx0 req0 s).1.token = some t1)
    (hemail : req1.body.email = req0.body.email)
    (hok1 : (login env cx1 req1 (login env cx0 req0 s).2).1.status = 200)
    (hsec : cx1.now / 1000 = cx0.now / 1000)
    (hsp : ' ' ∉ t1)
    (hauth : req2.authorization = some (bearerHeader t1))
    (hnow : cx2.now ≤ cx1.now + TOKEN_EXPIRES_AT_MS) :
    (login env cx1 req1 (login env cx0 req0 s).2).1.token = some t1 ∧
      (getUser cx2 req2 (login env cx1 req1 (login env cx0 req0 s).2).2).1.status = 200 := by
  obtain ⟨e0, user0, he0, hfind0, htok0, hus0⟩ := login_token hok0
  obtain ⟨e1, user1, he1, hfind1, htok1, -⟩ := login_token hok1
  have hee : e1 = e0 := by
    rw [hemail, he0] at he1
    exact (Option.some.inj he1).symm
  subst hee
  have huu : user1 = user0 := by
    rw [hus0, hfind0] at hfind1
    exact (Option.some.inj hfind1).symm
  subst huu
  have hsame : (login env cx1 req1 (login env cx0 req0 s).2).1.token = some t1 := by
    rw [htok1, hsec, ← htok0, ht1]
  exact ⟨hsame, login_then_getUser hok1 hsame hsp hauth hnow⟩


/-! ## The user collection -/

theorem map_replaceFirst_of_find {β : Type} (f : User → β) (p : User → Bool)
    (old new : User) (hfn : f new = f old) :
    ∀ l : List User, l.find? p = some old → (replaceFirst p new l).map f = l.map f := by
  intro l
  induction l with
  | nil => intro h; cases h
  | cons u us ih =>
    intro h
    unfold replaceFirst
    by_cases hp : p u = true
    · rw [List.find?_cons_of_pos _ hp] at h
      cases h
      simp [hp, hfn]
    · rw [List.find?_cons_of_neg _ hp] at h
      simp [hp, ih h]

theorem find_replaceFirst (p : User → Bool) (old new : User) (hp : p new = true) :
    ∀ l : List User, l.find? p = some old → (replaceFirst p new l).find? p = some new := by
  intro l
  induction l with
  | nil => intro h; cases h
  | cons u us ih =>
    intro h
    unfold replaceFirst
    by_cases hu : p u = true
    · simp [hu, hp]
    · rw [List.find?_cons_of_neg _ hu] at h
      simp [hu, ih h]

theorem replaceFirst_self (p : User → Bool) (old : User) :
    ∀ l : List User, l.find? p = some old → replaceFirst p old l = l := by
  intro l
  induction l with
  | nil => intro _; rfl
  | cons u us ih =>
    intro h
    unfold replaceFirst
    by_cases hu : p u = true
    · rw [List.find?_cons_of_pos _ hu] at h
      cases h
      simp [hu]
    · rw [List.find?_cons_of_neg _ hu] at h
      simp [hu, ih h]

/-- The user collection after one event: as before, or one document appended,
or the first document of some id replaced by its update. -/
theorem step_users (env : Env) (s : Store) (e : Event) :
    (step env s e).users = s.users ∨
    (∃ u, (step env s e).users = s.users ++ [u]) ∨
    ∃ old b, s.users.find? (fun u => decide (u.id = old.id)) = some old ∧
      (step env s e).users =
        replaceFirst (fun u => decide (u.id = old.id)) (completeProfile (applyUpdates b old))
          s.users := by
  cases e with
  | sweep now => exact Or.inl rfl
  | request route cx req =>
    cases route with
    | createUser =>
      simp only [step, handle]
      rcases createUser_store env cx req s with h0 | ⟨u, s1, hs1, h1⟩
      · rw [h0]; exact Or.inl rfl
      · obtain ⟨rfl, -, -⟩ := saveNewUser_some hs1
        rcases h1 with h1 | ⟨t, s2, -, hs2, h2⟩
        · rw [h1]; exact Or.inr (Or.inl ⟨u, rfl⟩)
        · obtain ⟨rfl, -, -, -⟩ := saveNewToken_some hs2
          rw [h2]; exact Or.inr (Or.inl ⟨u, rfl⟩)
    | login =>
      simp only [step, handle]
      rcases login_store env cx req s with h0 | ⟨uid, _, h1 | ⟨t, s2, -, hs2, h2⟩⟩
      · rw [h0]; exact Or.inl rfl
      · rw [h1]; exact Or.inl rfl
      · obtain ⟨rfl, -, -, -⟩ := saveNewToken_some hs2
        rw [h2]; exact Or.inl rfl
    | getUser =>
      simp only [step, handle]
      rcases getUser_store cx req s with h0 | ⟨token, h0⟩ <;> rw [h0] <;> exact Or.inl rfl
    | logout =>
      simp only [step, handle]
      rcases logout_store req s with h0 | ⟨token, h0⟩ <;> rw [h0] <;> exact Or.inl rfl
    | updateProfile =>
      simp only [step, handle]
      rcases updateProfile_store cx req s with h0 | ⟨token, h0⟩ | ⟨old, s1, hfind, hs1, h0⟩
      · rw [h0]; exact Or.inl rfl
      · rw [h0]; exact Or.inl rfl
      · obtain ⟨rfl, -⟩ := saveUser_some hs1
        rw [h0]; exact Or.inr (Or.inr ⟨old, req.body, hfind, rfl⟩)

theorem completeProfile_email (u : User) : (completeProfile u).email = u.email := by
  unfold completeProfile; split <;> rfl

theorem step_keeps_email (env : Env) (s : Store) (e : Event) (x : Str)
    (h : x ∈ s.users.map fun u => u.email) : x ∈ (step env s e).users.map fun u => u.email := by
  rcases step_users env s e with h0 | ⟨u, h0⟩ | ⟨old, b, hfind, h0⟩
  · rw [h0]; exact h
  · rw [h0, List.map_append]; exact List.mem_append_left _ h
  · rw [h0, map_replaceFirst_of_find (fun u => u.email) _ old
      (completeProfile (applyUpdates b old)) ((completeProfile_email _).trans rfl) _ hfind]
    exact h

theorem run_keeps_email (env : Env) (evs : List Event) (x : Str) :
    ∀ s : Store, x ∈ s.users.map (fun u => u.email) →
      x ∈ (run env s evs).users.map fun u => u.email := by
  induction evs with
  | nil => intro s h; exact h
  | cons e evs ih => intro s h; exact ih _ (step_keeps_email env s e x h)

theorem newUser_email {env : Env} {cx : Ctx} {b : Body} {e hp : Str} {u : User}
    (h : newUser env cx b e hp = some u) : u.email = castEmail env e ∧
      u.profileComplete = false := by
  unfold newUser at h
  split at h
  · cases h; exact ⟨rfl, rfl⟩
  · cases h

/-- C8. When `/create-user` answers 200, every later `/create-user` request
that carries the same email, after any sequence of events and whatever its
other fields, answers 400 "Email already exists" and leaves the store as it is. -/
theorem duplicate_email_conflict (env : Env) (cx1 cx2 : Ctx) (req1 req2 : Req) (s : Store)
    (evs : List Event)
    (hok : (createUser env cx1 req1 s).1.status = 200)
    (hemail : req2.body.email = req1.body.email) :
    createUser env cx2 req2 (run env (createUser env cx1 req1 s).2 evs) =
      ({ status := 400, msg := "Email already exists" },
       run env (createUser env cx1 req1 s).2 evs) := by
  obtain ⟨e, pw, u, s1, t, s2, he, hre, -, -, hu, hs1, -, hs2, hres⟩ := createUser_ok hok
  obtain ⟨rfl, -, -⟩ := saveNewUser_some hs1
  obtain ⟨rfl, -, -, -⟩ := saveNewToken_some hs2
  have hmem : castEmail env e ∈ (run env (createUser env cx1 req1 s).2 evs).users.map
      fun u => u.email := by
    apply run_keeps_email
    rw [hres]
    simp [(newUser_email hu).1]
  generalize run env (createUser env cx1 req1 s).2 evs = sr at hmem ⊢
  obtain ⟨v, hv, hve⟩ := List.mem_map.1 hmem
  cases hq : sr.users.find? (fun u => decide (u.email = castEmail env e)) with
  | none =>
    rw [List.find?_eq_none] at hq
    exact absurd (by simpa using hve) (hq v hv)
  | some w =>
    simp [createUser, hemail, he, hre, hq]


/-! ## Profile updates -/

theorem updateProfile_users_map {β : Type} (f : User → β) (cx : Ctx) (req : Req) (s : Store)
    (hf : ∀ u, f (completeProfile (applyUpdates req.body u)) = f u) :
    (updateProfile cx req s).2.users.map f = s.users.map f := by
  rcases updateProfile_store cx req s with h0 | ⟨token, h0⟩ | ⟨old, s1, hfind, hs1, h0⟩
  · rw [h0]
  · rw [h0]
  · obtain ⟨rfl, -⟩ := saveUser_some hs1
    rw [h0]
    exact map_replaceFirst_of_find f _ old _ (hf old) _ hfind

theorem updateProfile_body_congr (cx : Ctx) (req : Req) (s : Store) (b : Body)
    (h1 : b.name = req.body.name) (h2 : b.phone = req.body.phone)
    (h3 : b.country = req.body.country) (h4 : b.city = req.body.city)
    (h5 : b.preferences = req.body.preferences)
    (h6 : b.favoriteArtists = req.body.favoriteArtists)
    (h7 : b.favoriteVenues = req.body.favoriteVenues) :
    updateProfile cx { req with body := b } s = updateProfile cx req s := by
  have ha : ∀ u, applyUpdates b u = applyUpdates req.body u := by
    intro u; simp [applyUpdates, h1, h2, h3, h4, h5, h6, h7]
  have hd : definesAllowed b = definesAllowed req.body := by
    simp [definesAllowed, h1, h2, h3, h4, h5, h6, h7]
  simp only [updateProfile, bearerToken, ha, hd]

/-- C10. Whatever the token and the body, `/update-profile` leaves `id`,
`email`, `passwordHash` and `accountVerified` of every stored user as they
were, leaves every listed field that the body does not define as it was, and
answers and acts the same for any two bodies that agree on the seven listed
fields: the other keys of the body are not read. -/
theorem updateProfile_frame (cx : Ctx) (req : Req) (s : Store) :
    (updateProfile cx req s).2.users.map fixedFields = s.users.map fixedFields ∧
    (req.body.name = none →
      (updateProfile cx req s).2.users.map (fun u => u.name) = s.users.map fun u => u.name) ∧
    (req.body.phone = none →
      (updateProfile cx req s).2.users.map (fun u => u.phone) = s.users.map fun u => u.phone) ∧
    (req.body.country = none →
      (updateProfile cx req s).2.users.map (fun u => u.country) =
        s.users.map fun u => u.country) ∧
    (req.body.city = none →
      (updateProfile cx req s).2.users.map (fun u => u.city) = s.users.map fun u => u.city) ∧
    (req.body.preferences = none →
      (updateProfile cx req s).2.users.map (fun u => u.preferences) =
        s.users.map fun u => u.preferences) ∧
    (req.body.favoriteArtists = none →
      (updateProfile cx req s).2.users.map (fun u => u.favoriteArtists) =
        s.users.map fun u => u.favoriteArtists) ∧
    (req.body.favoriteVenues = none →
      (updateProfile cx req s).2.users.map (fun u => u.favoriteVenues) =
        s.users.map fun u => u.favoriteVenues) ∧
    (∀ b : Body, b.name = req.body.name → b.phone = req.body.phone →
      b.country = req.body.country → b.city = req.body.city →
      b.preferences = req.body.preferences →
      b.favoriteArtists = req.body.favoriteArtists →
      b.favoriteVenues = req.body.favoriteVenues →
      updateProfile cx { req with body := b } s = updateProfile cx req s) := by
  refine ⟨?_, ?_, ?_, ?_, ?_, ?_, ?_, ?_, ?_⟩
  · apply updateProfile_users_map
    intro u; unfold completeProfile; split <;> rfl
  · intro h; apply updateProfile_users_map
    intro u; unfold completeProfile; split <;> simp [markComplete, applyUpdates, h]
  · intro h; apply updateProfile_users_map
    intro u; unfold completeProfile; split <;> simp [markComplete, applyUpdates, h]
  · intro h; apply updateProfile_users_map
    intro u; unfold completeProfile; split <;> simp [markComplete, applyUpdates, h]
  · intro h; apply updateProfile_users_map
    intro u; unfold completeProfile; split <;> simp [markComplete, applyUpdates, h]
  · intro h; apply updateProfile_users_map
    intro u; unfold completeProfile; split <;> simp [markComplete, applyUpdates, h]
  · intro h; apply updateProfile_users_map
    intro u; unfold completeProfile; split <;> simp [markComplete, applyUpdates, h]
  · intro h; apply updateProfile_users_map
    intro u; unfold completeProfile; split <;> simp [markComplete, applyUpdates, h]
  · intro b h1 h2 h3 h4 h5 h6 h7
    exact updateProfile_body_congr cx req s b h1 h2 h3 h4 h5 h6 h7

theorem allPresent_of_valid {u : User} (h : userSchemaValid u = true) : allPresent u = true := by
  simp only [userSchemaValid, Bool.and_eq_true] at h
  simp only [allPresent, Bool.and_eq_true]
  tauto

theorem userSchemaValid_markComplete (u : User) :
    userSchemaValid (markComplete u) = userSchemaValid u := rfl

/-- C6 (as the code has it). In every store reached from the empty one, an
`/update-profile` request with a valid token whose body defines none of `name`,
`phone`, `country`, `city` leaves those four fields of every stored user as
they were; and when it answers 200, the answer and the stored document have
`profileComplete = true`, whatever the flag was before. -/
theorem update_nonrequired_fields (env : Env) (evs : List Event) (cx : Ctx) (req : Req)
    (user : User)
    (hs : sessionUser cx req (run env Store.empty evs) = some user)
    (hname : req.body.name = none) (hphone : req.body.phone = none)
    (hcountry : req.body.country = none) (hcity : req.body.city = none) :
    (updateProfile cx req (run env Store.empty evs)).2.users.map
        (fun u => (u.name, u.phone, u.country, u.city)) =
      (run env Store.empty evs).users.map (fun u => (u.name, u.phone, u.country, u.city)) ∧
    ((updateProfile cx req (run env Store.empty evs)).1.status = 200 →
      (updateProfile cx req (run env Store.empty evs)).1.user =
        some (fullUser (markComplete (applyUpdates req.body user))) ∧
      (updateProfile cx req (run env Store.empty evs)).2.users.find?
          (fun u => decide (u.id = user.id)) =
        some (markComplete (applyUpdates req.body user))) := by
  have hI := Inv.of_run env evs
  generalize run env Store.empty evs = s at hs hI ⊢
  have hfind := sessionUser_find hs
  have hvalid := hI.usersValid user (List.mem_of_find?_eq_some hfind)
  have hall : allPresent (applyUpdates req.body user) = true := by
    have := allPresent_of_valid hvalid
    simpa [allPresent, applyUpdates, hname, hphone, hcountry, hcity] using this
  have hcp : completeProfile (applyUpdates req.body user) =
      (markComplete (applyUpdates req.body user)) := by
    simp [completeProfile, hall]
  refine ⟨?_, ?_⟩
  · apply updateProfile_users_map
    intro u; unfold completeProfile
    split <;> simp [markComplete, applyUpdates, hname, hphone, hcountry, hcity]
  · rw [updateProfile_of_session hs, hcp]
    simp only [hall, Bool.or_true, if_true]
    cases hsave : saveUser s user (markComplete (applyUpdates req.body user)) with
    | none => simp
    | some s1 =>
      obtain ⟨rfl, -⟩ := saveUser_some hsave
      intro _
      exact ⟨rfl, find_replaceFirst _ user _ (by simp [applyUpdates, markComplete]) _ hfind⟩


theorem applyUpdates_of_not_defines {b : Body} (h : definesAllowed b = false) (u : User) :
    applyUpdates b u = u := by
  simp only [definesAllowed, Bool.or_eq_false_iff] at h
  obtain ⟨⟨⟨⟨⟨⟨h1, h2⟩, h3⟩, h4⟩, h5⟩, h6⟩, h7⟩ := h
  have e1 : b.name = none := by cases hx : b.name <;> simp [hx] at h1 ⊢
  have e2 : b.phone = none := by cases hx : b.phone <;> simp [hx] at h2 ⊢
  have e3 : b.country = none := by cases hx : b.country <;> simp [hx] at h3 ⊢
  have e4 : b.city = none := by cases hx : b.city <;> simp [hx] at h4 ⊢
  have e5 : b.preferences = none := by cases hx : b.preferences <;> simp [hx] at h5 ⊢
  have e6 : b.favoriteArtists = none := by cases hx : b.favoriteArtists <;> simp [hx] at h6 ⊢
  have e7 : b.favoriteVenues = none := by cases hx : b.favoriteVenues <;> simp [hx] at h7 ⊢
  simp [applyUpdates, e1, e2, e3, e4, e5, e6, e7]

/-- C9 (as the code has it). In every store reached from the empty one, an
`/update-profile` request with a valid token whose body defines none of the
seven listed fields answers 200 with the stored user, every field as it was
except `profileComplete`, which is answered and stored as true; nothing else
in the store changes, and the store does not change at all when the flag was
already true. -/
theorem update_empty_body (env : Env) (evs : List Event) (cx : Ctx) (req : Req) (user : User)
    (hs : sessionUser cx req (run env Store.empty evs) = some user)
    (hb : definesAllowed req.body = false) :
    updateProfile cx req (run env Store.empty evs) =
      ({ status := 200, msg := "Profile updated successfully",
         user := some (fullUser (markComplete user)) },
       { run env Store.empty evs with
         users := replaceFirst (fun u => decide (u.id = user.id))
           (markComplete user) (run env Store.empty evs).users }) ∧
    (user.profileComplete = true →
      (updateProfile cx req (run env Store.empty evs)).2 = run env Store.empty evs) := by
  have hI := Inv.of_run env evs
  generalize run env Store.empty evs = s at hs hI ⊢
  have hfind := sessionUser_find hs
  have hvalid := hI.usersValid user (List.mem_of_find?_eq_some hfind)
  have hall : allPresent user = true := allPresent_of_valid hvalid
  have hcp : completeProfile user = (markComplete user) := by
    simp [completeProfile, hall]
  have hsave : saveUser s user (markComplete user) =
      some { s with
        users := replaceFirst (fun u => decide (u.id = user.id)) (markComplete user) s.users } := by
    unfold saveUser
    rw [if_pos]
    exact ⟨by rw [userSchemaValid_markComplete]; exact hvalid, fun hne => absurd rfl hne⟩
  have hres : updateProfile cx req s =
      ({ status := 200, msg := "Profile updated successfully",
         user := some (fullUser (markComplete user)) },
       { s with
         users := replaceFirst (fun u => decide (u.id = user.id)) (markComplete user) s.users }) := by
    rw [updateProfile_of_session hs, applyUpdates_of_not_defines hb, hcp]
    simp only [hall, Bool.or_true, if_true, hsave]
  refine ⟨hres, ?_⟩
  intro hpc
  have hsame : markComplete user = user := by
    cases user; simp_all [markComplete]
  rw [hres, hsame, replaceFirst_self _ user _ hfind]

/-- The user collection after `/create-user`: as before, or one document with
`profileComplete = false` appended. -/
theorem createUser_users (env : Env) (cx : Ctx) (req : Req) (s : Store) :
    (createUser env cx req s).2.users = s.users ∨
    ∃ u, u.profileComplete = false ∧ (createUser env cx req s).2.users = s.users ++ [u] := by
  unfold createUser
  split
  · exact Or.inl rfl
  · split
    · exact Or.inl rfl
    · split
      · exact Or.inl rfl
      · split
        · exact Or.inl rfl
        · split
          · exact Or.inl rfl
          · rename_i u hu
            have hflag := (newUser_email hu).2
            split
            · exact Or.inl rfl
            · rename_i s1 hs1
              obtain ⟨rfl, -, -⟩ := saveNewUser_some hs1
              split
              · exact Or.inr ⟨u, hflag, rfl⟩
              · split
                · exact Or.inr ⟨u, hflag, rfl⟩
                · rename_i s2 hs2
                  obtain ⟨rfl, -, -, -⟩ := saveNewToken_some hs2
                  exact Or.inr ⟨u, hflag, rfl⟩

/-- An `/update-profile` request that is not answered 200 leaves the user
collection as it was. -/
theorem updateProfile_users_or_ok (cx : Ctx) (req : Req) (s : Store) :
    (updateProfile cx req s).2.users = s.users ∨ (updateProfile cx req s).1.status = 200 := by
  unfold updateProfile
  split
  · exact Or.inl rfl
  · split
    · exact Or.inl rfl
    · split
      · exact Or.inl rfl
      · split
        · exact Or.inl rfl
        · split
          · exact Or.inl rfl
          · dsimp only
            split
            · split
              · exact Or.inl rfl
              · exact Or.inr rfl
            · exact Or.inr rfl

/-- A document with `profileComplete = true` in the store after an event was
in the store before it, or the event is an `/update-profile` request that was
answered 200. -/
theorem step_flag_origin (env : Env) (s : Store) (e : Event) (u : User)
    (hu : u ∈ (step env s e).users) (hf : u.profileComplete = true) :
    u ∈ s.users ∨
    ∃ cx req, e = Event.request Route.updateProfile cx req ∧
      (updateProfile cx req s).1.status = 200 := by
  cases e with
  | sweep now => exact Or.inl hu
  | request route cx req =>
    cases route with
    | createUser =>
      simp only [step, handle] at hu
      rcases createUser_users env cx req s with h0 | ⟨v, hv, h0⟩
      · rw [h0] at hu; exact Or.inl hu
      · rw [h0] at hu
        rcases List.mem_append.1 hu with hu | hu
        · exact Or.inl hu
        · rw [List.mem_singleton.1 hu, hv] at hf
          cases hf
    | login =>
      simp only [step, handle] at hu
      rcases login_store env cx req s with h0 | ⟨uid, _, h1 | ⟨t, s2, -, hs2, h2⟩⟩
      · rw [h0] at hu; exact Or.inl hu
      · rw [h1] at hu; exact Or.inl hu
      · obtain ⟨rfl, -, -, -⟩ := saveNewToken_some hs2
        rw [h2] at hu; exact Or.inl hu
    | getUser =>
      simp only [step, handle] at hu
      rcases getUser_store cx req s with h0 | ⟨token, h0⟩ <;> rw [h0] at hu <;> exact Or.inl hu
    | logout =>
      simp only [step, handle] at hu
      rcases logout_store req s with h0 | ⟨token, h0⟩ <;> rw [h0] at hu <;> exact Or.inl hu
    | updateProfile =>
      simp only [step, handle] at hu
      rcases updateProfile_users_or_ok cx req s with h0 | h0
      · rw [h0] at hu; exact Or.inl hu
      · exact Or.inr ⟨cx, req, rfl, h0⟩

theorem run_append_singleton (env : Env) (s : Store) (evs : List Event) (e : Event) :
    run env s (evs ++ [e]) = step env (run env s evs) e := by
  simp [run, List.foldl_append]

/-- A store reached from the empty one holds a document with
`profileComplete = true` only if its history contains an `/update-profile`
request that was answered 200. -/
theorem run_flag_origin (env : Env) (evs : List Event) :
    (∃ u ∈ (run env Store.empty evs).users, u.profileComplete = true) →
    ∃ pre cx req post, evs = pre ++ Event.request Route.updateProfile cx req :: post ∧
      (updateProfile cx req (run env Store.empty pre)).1.status = 200 := by
  induction evs using List.reverseRecOn with
  | nil =>
    rintro ⟨u, hu, -⟩
    simp [run, Store.empty] at hu
  | append_singleton evs e ih =>
    rintro ⟨u, hu, hf⟩
    rw [run_append_singleton] at hu
    rcases step_flag_origin env _ e u hu hf with hin | ⟨cx, req, he, hok⟩
    · obtain ⟨pre, cx, req, post, hevs, hok⟩ := ih ⟨u, hin, hf⟩
      exact ⟨pre, cx, req, post ++ [e], by rw [hevs]; simp, hok⟩
    · exact ⟨evs, cx, req, [], by rw [he], hok⟩

/-- C7 (as the code has it). When `/create-user` answers 200, the new user is
appended to the collection and returned with `profileComplete = false`,
although its `name`, `phone`, `country` and `city` are all non-empty. In every
store reached from the empty one a user whose `profileComplete` is true has
all four non-empty. The flag becomes true only at a successful
`/update-profile`: a document with the flag true in the store after an event
was already stored before the event, or the event is an `/update-profile`
request answered 200; and a reached store holds a document with the flag true
only if its history contains an `/update-profile` request answered 200. -/
theorem register_profile_flag (env : Env) (evs : List Event) (cx : Ctx) (req : Req) :
    ((createUser env cx req (run env Store.empty evs)).1.status = 200 →
      ∃ u, (createUser env cx req (run env Store.empty evs)).2.users =
          (run env Store.empty evs).users ++ [u] ∧
        (createUser env cx req (run env Store.empty evs)).1.user = some (briefUser u) ∧
        u.profileComplete = false ∧ allPresent u = true) ∧
    (∀ u ∈ (run env Store.empty evs).users, u.profileComplete = true → allPresent u = true) ∧
    (∀ (e : Event) (u : User), u ∈ (step env (run env Store.empty evs) e).users →
      u.profileComplete = true →
      u ∈ (run env Store.empty evs).users ∨
      ∃ cx1 req1, e = Event.request Route.updateProfile cx1 req1 ∧
        (updateProfile cx1 req1 (run env Store.empty evs)).1.status = 200) ∧
    ((∃ u ∈ (run env Store.empty evs).users, u.profileComplete = true) →
      ∃ pre cx1 req1 post,
        evs = pre ++ Event.request Route.updateProfile cx1 req1 :: post ∧
        (updateProfile cx1 req1 (run env Store.empty pre)).1.status = 200) := by
  refine ⟨?_, ?_, ?_, ?_⟩
  · intro hok
    obtain ⟨e, pw, u, s1, t, s2, -, -, -, -, hu, hs1, -, hs2, hres⟩ := createUser_ok hok
    obtain ⟨rfl, hvalid, -⟩ := saveNewUser_some hs1
    obtain ⟨rfl, -, -, -⟩ := saveNewToken_some hs2
    rw [hres]
    exact ⟨u, rfl, rfl, (newUser_email hu).2, allPresent_of_valid hvalid⟩
  · intro u hu _
    exact allPresent_of_valid ((Inv.of_run env evs).usersValid u hu)
  · intro e u hu hf
    exact step_flag_origin env _ e u hu hf
  · exact run_flag_origin env evs


/-! ## The scenario of the spec, evaluated -/

set_option maxRecDepth 1000000

theorem annStore_eq : annStore = { users := [annUser], tokens := [annRow] } := by decide

theorem run_annHistory : run sampleEnv Store.empty annHistory = annStore := rfl

/-- Witness of C3: Ann registers and her token is validated. -/
theorem register_then_validate_witness :
    (createUser sampleEnv annCtx annRegister Store.empty).1.status = 200 ∧
    ∃ v, getUser { now := 1 } (annRequest {}) annStore =
        ({ status := 200, msg := "User found", user := some v }, annStore) ∧
      v.id = (briefUser annUser).id :=
  ⟨by decide,
    register_then_validate sampleEnv annCtx { now := 1 } annRegister (annRequest {})
      Store.empty (briefUser annUser) annToken (by decide) (by decide) (by decide) (by decide)
      rfl (by decide)⟩

/-- Witness of C5: Ann logs out and her token is refused. -/
theorem logout_then_validate_witness :
    (logout (annRequest {}) annStore).1.status = 200 ∧
    (getUser { now := 2 } (annRequest {}) (logout (annRequest {}) annStore).2).1.status = 401 :=
  ⟨by decide,
    logout_then_validate { now := 2 } (annRequest {}) (annRequest {}) annStore (by decide)
      (by decide) rfl⟩

/-- Witness of C4: Ann's token is presented a millisecond after it expired. -/
theorem expired_token_rejected_witness :
    (annRow ∈ (run sampleEnv Store.empty annHistory).tokens ∧ annRow.expiresAt < 86400001) ∧
    (getUser { now := 86400001 } (annRequest {}) (run sampleEnv Store.empty annHistory)).1.status
        = 401 ∧
      ∀ q ∈ (getUser { now := 86400001 } (annRequest {})
          (run sampleEnv Store.empty annHistory)).2.tokens, q.token ≠ annRow.token :=
  ⟨⟨by decide, by decide⟩,
    expired_token_rejected sampleEnv annHistory { now := 86400001 } (annRequest {}) annRow
      (by decide) (by decide) (by decide)⟩

/-- Witness of C2's evaluation: Ann logs in at 1000 ms and again at 1999 ms;
the second login returns the token of the first, which `/get-user` accepts. -/
theorem relogin_same_second_witness :
    (login sampleEnv { now := 1000 } annLogin annStore).1.token = some annLoginToken ∧
    (login sampleEnv { now := 1999 } annLogin
      (login sampleEnv { now := 1000 } annLogin annStore).2).1.token = some annLoginToken ∧
    (getUser { now := 2500 } { authorization := some (bearerHeader annLoginToken) }
      (login sampleEnv { now := 1999 } annLogin
        (login sampleEnv { now := 1000 } annLogin annStore).2).2).1.status = 200 :=
  ⟨by decide,
    relogin_same_second sampleEnv { now := 1000 } { now := 1999 } { now := 2500 }
      annLogin annLogin { authorization := some (bearerHeader annLoginToken) } annStore
      annLoginToken (by decide) (by decide) rfl (by decide) (by decide) (by decide) rfl
      (by decide)⟩

/-- Witness of C8: a second registration with Ann's email, after a login and
with other values in every other field, is refused. -/
theorem duplicate_email_conflict_witness :
    (createUser sampleEnv annCtx annRegister Store.empty).1.status = 200 ∧
    createUser sampleEnv { now := 7, random := "zzz".toList } bobRegister
        (run sampleEnv annStore [Event.request Route.login { now := 5 } annLogin]) =
      ({ status := 400, msg := "Email already exists" },
       run sampleEnv annStore [Event.request Route.login { now := 5 } annLogin]) :=
  ⟨by decide,
    duplicate_email_conflict sampleEnv annCtx { now := 7, random := "zzz".toList }
      annRegister bobRegister Store.empty [Event.request Route.login { now := 5 } annLogin]
      (by decide) rfl⟩

/-- Counterexample to C6: Ann, registered with `profileComplete = false`,
sends only `preferences`; the answer and the stored document have
`profileComplete = true`. -/
theorem update_preferences_flips_flag :
    annStore.users.map (fun u => u.profileComplete) = [false] ∧
    (updateProfile { now := 5 } (annRequest { preferences := some ["rock".toList] })
      annStore).1.status = 200 ∧
    (updateProfile { now := 5 } (annRequest { preferences := some ["rock".toList] })
      annStore).1.user.map (fun u => u.profileComplete) = some true ∧
    (updateProfile { now := 5 } (annRequest { preferences := some ["rock".toList] })
      annStore).2.users.map (fun u => u.profileComplete) = [true] := by
  decide

/-- Witness of C6 as amended. -/
theorem update_nonrequired_fields_witness :
    sessionUser { now := 5 } (annRequest { preferences := some ["rock".toList] })
      (run sampleEnv Store.empty annHistory) = some annUser ∧
    ((updateProfile { now := 5 } (annRequest { preferences := some ["rock".toList] })
      (run sampleEnv Store.empty annHistory)).2.users.map
        (fun u => (u.name, u.phone, u.country, u.city)) =
      (run sampleEnv Store.empty annHistory).users.map
        (fun u => (u.name, u.phone, u.country, u.city)) ∧
    ((updateProfile { now := 5 } (annRequest { preferences := some ["rock".toList] })
        (run sampleEnv Store.empty annHistory)).1.status = 200 →
      (updateProfile { now := 5 } (annRequest { preferences := some ["rock".toList] })
        (run sampleEnv Store.empty annHistory)).1.user =
          some (fullUser (markComplete
            (applyUpdates { preferences := some ["rock".toList] } annUser))) ∧
      (updateProfile { now := 5 } (annRequest { preferences := some ["rock".toList] })
        (run sampleEnv Store.empty annHistory)).2.users.find?
          (fun u => decide (u.id = annUser.id)) =
        some (markComplete (applyUpdates { preferences := some ["rock".toList] } annUser)))) :=
  ⟨by decide,
    update_nonrequired_fields sampleEnv annHistory { now := 5 }
      (annRequest { preferences := some ["rock".toList] }) annUser (by decide) rfl rfl rfl
      rfl⟩

/-- Counterexample to C9: Ann, registered with `profileComplete = false`, sends
an empty body; the answer has `profileComplete = true` and the user collection
is written. -/
theorem empty_update_writes :
    annStore.users.map (fun u => u.profileComplete) = [false] ∧
    (updateProfile { now := 5 } (annRequest {}) annStore).1.status = 200 ∧
    (updateProfile { now := 5 } (annRequest {}) annStore).1.user.map
      (fun u => u.profileComplete) = some true ∧
    (updateProfile { now := 5 } (annRequest {}) annStore).2.users ≠ annStore.users := by
  decide

/-- Witness of C9 as amended. -/
theorem update_empty_body_witness :
    sessionUser { now := 5 } (annRequest {}) (run sampleEnv Store.empty annHistory) =
      some annUser ∧
    (updateProfile { now := 5 } (annRequest {}) (run sampleEnv Store.empty annHistory)).1 =
      { status := 200, msg := "Profile updated successfully",
        user := some (fullUser (markComplete annUser)) } :=
  ⟨by decide,
    congrArg Prod.fst
      (update_empty_body sampleEnv annHistory { now := 5 } (annRequest {}) annUser
        (by decide) rfl).1⟩

/-- Counterexample to C7: the registration of the spec's scenario, with all
four fields non-empty, answers 200 with `profileComplete = false` and stores
the user with `profileComplete = false`. -/
theorem register_complete_profile_flag_false :
    (createUser sampleEnv annCtx annRegister Store.empty).1.status = 200 ∧
    (createUser sampleEnv annCtx annRegister Store.empty).1.user.map
      (fun u => (u.name, u.profileComplete)) = some ("Ann Lee".toList, false) ∧
    (createUser sampleEnv annCtx annRegister Store.empty).2.users.map
      (fun u => (allPresent u, u.profileComplete)) = [(true, false)] := by
  decide

/-- Witness of C7 as amended: a second user registers after Ann and is stored
with the flag false; and in the history where Ann then sends an empty
`/update-profile`, her flag is true and that request, answered 200, is found
in the history. -/
theorem register_profile_flag_witness :
    ((createUser sampleEnv { now := 9, random := "bob".toList }
      { bobRegister with body := { bobRegister.body with email := some "bob@x.org".toList } }
      (run sampleEnv Store.empty annUpdatedHistory)).1.status = 200 ∧
    ∃ u, (createUser sampleEnv { now := 9, random := "bob".toList }
        { bobRegister with body := { bobRegister.body with email := some "bob@x.org".toList } }
        (run sampleEnv Store.empty annUpdatedHistory)).2.users =
          (run sampleEnv Store.empty annUpdatedHistory).users ++ [u] ∧
      (createUser sampleEnv { now := 9, random := "bob".toList }
        { bobRegister with body := { bobRegister.body with email := some "bob@x.org".toList } }
        (run sampleEnv Store.empty annUpdatedHistory)).1.user = some (briefUser u) ∧
      u.profileComplete = false ∧ allPresent u = true) ∧
    ((run sampleEnv Store.empty annUpdatedHistory).users = [markComplete annUser] ∧
    ∃ pre cx1 req1 post,
      annUpdatedHistory = pre ++ Event.request Route.updateProfile cx1 req1 :: post ∧
      (updateProfile cx1 req1 (run sampleEnv Store.empty pre)).1.status = 200) :=
  ⟨⟨by decide,
    (register_profile_flag sampleEnv annUpdatedHistory { now := 9, random := "bob".toList }
      { bobRegister with body := { bobRegister.body with email := some "bob@x.org".toList } }).1
      (by decide)⟩,
   ⟨by decide,
    (register_profile_flag sampleEnv annUpdatedHistory { now := 9, random := "bob".toList }
      { bobRegister with body := { bobRegister.body with email := some "bob@x.org".toList }
      }).2.2.2
      ⟨markComplete annUser, by decide, rfl⟩⟩⟩

/-- Witness of C10: a body with `city`, a password, an email and two foreign
keys changes Ann's city and nothing of her name. -/
theorem updateProfile_frame_witness :
    (updateProfile { now := 5 }
      (annRequest { city := some "Boston".toList, email := some "eve@x.com".toList,
                    password := some "x".toList,
                    others := [("accountVerified", "true"), ("id", "usr_1")] })
      annStore).2.users.map (fun u => (u.name, u.city)) =
        [("Ann Lee".toList, "Boston".toList)] ∧
    updateProfile { now := 5 }
      (annRequest { city := some "Boston".toList, email := some "eve@x.com".toList,
                    password := some "x".toList,
                    others := [("accountVerified", "true"), ("id", "usr_1")] }) annStore =
      updateProfile { now := 5 } (annRequest { city := some "Boston".toList }) annStore :=
  ⟨by decide,
    ((updateProfile_frame { now := 5 } (annRequest { city := some "Boston".toList })
      annStore).2.2.2.2.2.2.2.2
      { city := some "Boston".toList, email := some "eve@x.com".toList,
        password := some "x".toList,
        others := [("accountVerified", "true"), ("id", "usr_1")] }
      rfl rfl rfl rfl rfl rfl rfl)⟩

end Festora
